import Mathlib

/-!
Shallow embedding of the document workflow of leyesabiertas-core
(src/api/document.js together with the store operations described in the
specification). Identifiers are natural numbers standing for ObjectIds,
instants are integers standing for Date values, and each route handler is
a pure function from a state and a request to an `Except` result carrying
the new state and the emitted notification events.
-/

set_option maxHeartbeats 1000000

namespace LeyesAbiertas

/-- Content of a document version: the optional `closingDate` (a timestamp)
together with the remaining form-shaped data, kept opaque. -/
structure Content where
  closingDate : Option Int
  data : String
deriving DecidableEq, Repr

/-- Document record: identity, author, custom form reference, publish state,
the `closed` value stored by updates (caller supplied), the id of the
current version and the comment counter. -/
structure Document where
  id : Nat
  author : Nat
  customForm : Nat
  published : Bool
  closedStored : Option Bool
  currentVersion : Nat
  commentsCount : Nat
deriving DecidableEq, Repr

/-- Version snapshot of a document: owning document, version number,
content and the list of comment ids merged as contributions. -/
structure DocumentVersion where
  id : Nat
  document : Nat
  version : Nat
  content : Content
  contributions : List Nat
deriving DecidableEq, Repr

/-- Comment on a field of a document version. -/
structure Comment where
  id : Nat
  user : Nat
  document : Nat
  version : Nat
  field : String
  content : String
  decoration : Option String
  resolved : Bool
  reply : Option String
deriving DecidableEq, Repr

/-- Like row: existence of a row is the liked state of the (user, comment)
pair. -/
structure Like where
  id : Nat
  user : Nat
  comment : Nat
deriving DecidableEq, Repr

/-- Custom form: identity, slug and the names of the commentable fields. -/
structure CustomForm where
  id : Nat
  slug : String
  allowComments : List String
deriving DecidableEq, Repr

/-- Community settings: the per-role document creation limit
(`community.permissions.accountable.documentCreationLimit`). -/
structure Community where
  documentCreationLimit : Nat
deriving DecidableEq, Repr

/-- Persistent state backing the stores. `nextId` is the supply of fresh
ObjectIds. -/
structure State where
  documents : List Document
  versions : List DocumentVersion
  comments : List Comment
  likes : List Like
  forms : List CustomForm
  community : Community
  nextId : Nat
deriving DecidableEq, Repr

/-- Error taxonomy of services/errors as surfaced by the routes.
`PolicyViolation` is ErrNotAuthorized raised for the creation limit,
`InternalError` stands for an uncaught TypeError on a dangling reference. -/
inductive Err where
  | NotFound
  | Forbidden
  | PolicyViolation
  | BadRequest
  | InvalidParam
  | Closed
  | MissingQuery
  | InternalError
deriving DecidableEq, Repr

/-- Notification events handed to services/notifier. -/
inductive Event where
  | commentContribution (commentId : Nat)
  | commentResolved (commentId : Nat)
  | commentLiked (commentId : Nat)
  | documentCloses (documentId : Nat) (closingDate : Option Int)
deriving DecidableEq, Repr

/-- Document.get on the store: first document with the given id. -/
def Document.getById (st : State) (docId : Nat) : Option Document :=
  st.documents.find? (fun d => d.id == docId)

/-- DocumentVersion lookup by id, the populated `currentVersion`. -/
def DocumentVersion.getById (st : State) (vid : Nat) : Option DocumentVersion :=
  st.versions.find? (fun v => v.id == vid)

/-- CustomForm.get by id. -/
def CustomForm.getById (st : State) (fid : Nat) : Option CustomForm :=
  st.forms.find? (fun f => f.id == fid)

/-- CustomForm.get by slug. -/
def CustomForm.getBySlug (st : State) (slug : String) : Option CustomForm :=
  st.forms.find? (fun f => f.slug == slug)

/-- Comment lookup by id. -/
def Comment.getById (st : State) (cid : Nat) : Option Comment :=
  st.comments.find? (fun c => c.id == cid)

/-- Like.get for a (user, comment) pair. -/
def Like.getPair (st : State) (user commentId : Nat) : Option Like :=
  st.likes.find? (fun l => l.user == user && l.comment == commentId)

/-- Modelled from the spec: Document.countAuthorDocuments (db-api/document,
not under src) counts all documents of the author regardless of published
state. -/
def Document.countAuthorDocuments (st : State) (user : Nat) : Nat :=
  (st.documents.filter (fun d => d.author == user)).length

/-- JS guard `!customForm.fields.allowComments.find((x) => x === field)`:
the find returns the field string itself, so the guard passes only when the
field is present and, JS truthiness, is not the empty string. -/
def fieldCommentable (allowComments : List String) (field : String) : Bool :=
  match allowComments.find? (fun x => x == field) with
  | none => false
  | some x => !(x == "")

/-- Modelled from the spec: Document.update (db-api, not under src) applies
the optional `published` and `closed` override and the new `currentVersion`
of the patch to the stored document and returns it. -/
def applyPatch (d : Document) (published closed : Option Bool)
    (currentVersion : Option Nat) : Document :=
  { d with
    published := published.getD d.published
    closedStored := match closed with | some b => some b | none => d.closedStored
    currentVersion := currentVersion.getD d.currentVersion }

/-- Modelled from the spec: Comment.updateDecorations (db-api, not under
src) bulk-rewrites the decoration of the comments belonging to a version,
keyed by comment id in the payload; unmentioned comments are untouched. -/
def updateDecorations (comments : List Comment) (versionId : Nat)
    (decorations : List (Nat × Option String)) : List Comment :=
  comments.map (fun c =>
    if c.version == versionId then
      match decorations.find? (fun p => p.fst == c.id) with
      | some p => { c with decoration := p.snd }
      | none => c
    else c)

/-- Body of POST /documents: the custom form slug and the initial content. -/
structure CreateBody where
  customForm : String
  content : Content
deriving DecidableEq, Repr

/-- Body of PUT /documents/:id. Absent list fields are the empty list,
mirroring the `x && x.length > 0` guards of the route. -/
structure UpdateBody where
  published : Option Bool
  closed : Option Bool
  decorations : List (Nat × Option String)
  content : Content
  contributions : List Nat
deriving DecidableEq, Repr

/-- Body of POST /documents/:id/comments. -/
structure CommentBody where
  field : String
  content : String
  decoration : Option String
deriving DecidableEq, Repr

/-- POST /documents (route postDocument): checks the creation limit against
the community permissions, resolves the custom form by slug, then creates
the document with its initial version (Document.create is modelled from the
spec: published=false, version 1, atomic) and schedules the closing
notification. -/
def postDocument (st : State) (user : Nat) (body : CreateBody) :
    Except Err (Document × State × List Event) := do
  let limit := st.community.documentCreationLimit
  let documentsCount := Document.countAuthorDocuments st user
  if documentsCount ≥ limit then
    throw Err.PolicyViolation
  let some customForm := CustomForm.getBySlug st body.customForm
    | throw Err.BadRequest
  let newVersion : DocumentVersion :=
    { id := st.nextId
      document := st.nextId + 1
      version := 1
      content := body.content
      contributions := [] }
  let newDocument : Document :=
    { id := st.nextId + 1
      author := user
      customForm := customForm.id
      published := false
      closedStored := none
      currentVersion := newVersion.id
      commentsCount := 0 }
  let st' : State :=
    { st with
      documents := newDocument :: st.documents
      versions := newVersion :: st.versions
      nextId := st.nextId + 2 }
  pure (newDocument, st', [Event.documentCloses newDocument.id body.content.closingDate])

/-- Payload of GET /documents/:id: the document with its derived closed
flag, the isAuthor flag, and the aggregate counts added when closed. -/
structure GetPayload where
  document : Document
  closed : Bool
  isAuthor : Bool
  aggregates : Option (Nat × Nat × Nat)
deriving DecidableEq, Repr

/-- Modelled from the spec: DocumentVersion.countContributions (db-api, not
under src) returns the total merged contributions and the distinct
contributing users across all versions of the document. -/
def countContributions (st : State) (docId : Nat) : Nat × Nat :=
  let contribIds := (st.versions.filter (fun v => v.document == docId)).foldr
    (fun v acc => v.contributions ++ acc) []
  let users := contribIds.filterMap
    (fun cid => (Comment.getById st cid).map (fun c => c.user))
  (contribIds.length, users.eraseDups.length)

/-- GET /documents/:id (route getDocument): NotFound when absent; draft
documents are served only to their author; the closed flag delivered on the
document is derived from the closingDate of the current version against
now; when closed, contribution aggregates are added to the payload. -/
def getDocument (now : Int) (st : State) (user : Option Nat) (docId : Nat) :
    Except Err GetPayload := do
  let some document := Document.getById st docId
    | throw Err.NotFound
  let isTheAuthor := match user with
    | some u => u == document.author
    | none => false
  let some cur := DocumentVersion.getById st document.currentVersion
    | throw Err.InternalError
  let isClosed := match cur.content.closingDate with
    | some d => decide (now > d)
    | none => false
  if !document.published && !isTheAuthor then
    throw Err.Forbidden
  let aggregates :=
    if isClosed then
      let counts := countContributions st docId
      let contextual := (st.comments.filter
        (fun c => c.document == docId && c.decoration != none)).length
      some (counts.fst, counts.snd, contextual)
    else none
  pure { document := document
         closed := isClosed
         isAuthor := isTheAuthor
         aggregates := aggregates }

/-- PUT /documents/:id (route putDocument): NotFound when absent, Forbidden
unless the acting user is the author; a non-empty decorations list first
rewrites the decorations of the comments of the current version; a
non-empty contributions list creates a new version numbered one above the
current one and advances the currentVersion pointer, notifying each
contributing comment; otherwise the content of the current version is
replaced in place; finally a content closingDate re-emits the closing
event. -/
def putDocument (st : State) (user : Nat) (docId : Nat) (body : UpdateBody) :
    Except Err (Document × State × List Event) := do
  let some document := Document.getById st docId
    | throw Err.NotFound
  if !(user == document.author) then
    throw Err.Forbidden
  let some cur := DocumentVersion.getById st document.currentVersion
    | throw Err.InternalError
  let comments1 :=
    if !body.decorations.isEmpty then
      updateDecorations st.comments document.currentVersion body.decorations
    else st.comments
  if !body.contributions.isEmpty then
    let newVersion : DocumentVersion :=
      { id := st.nextId
        document := document.id
        version := cur.version + 1
        content := body.content
        contributions := body.contributions }
    let updatedDocument :=
      applyPatch document body.published body.closed (some newVersion.id)
    let docs' := st.documents.map
      (fun d => if d.id == docId then updatedDocument else d)
    let contribComments := comments1.filter
      (fun c => body.contributions.contains c.id)
    let evs := contribComments.map (fun c => Event.commentContribution c.id)
    let evs' := match body.content.closingDate with
      | some dt => evs ++ [Event.documentCloses docId (some dt)]
      | none => evs
    pure (updatedDocument,
      { st with
        documents := docs'
        versions := newVersion :: st.versions
        comments := comments1
        nextId := st.nextId + 1 },
      evs')
  else
    let versions' := st.versions.map
      (fun v => if v.id == document.currentVersion then
        { v with content := body.content } else v)
    let updatedDocument := applyPatch document body.published body.closed none
    let docs' := st.documents.map
      (fun d => if d.id == docId then updatedDocument else d)
    let evs := match body.content.closingDate with
      | some dt => [Event.documentCloses docId (some dt)]
      | none => []
    pure (updatedDocument,
      { st with
        documents := docs'
        versions := versions'
        comments := comments1 },
      evs)

/-- POST /documents/:id/comments (route createComment): NotFound when the
document is absent; InvalidParam when the field does not pass the
allowComments guard; Closed when the current version carries a closingDate
strictly in the past; otherwise the comment is stored (resolved=false) and
the commentsCount of the document is incremented. -/
def createComment (now : Int) (st : State) (user : Nat) (docId : Nat)
    (body : CommentBody) : Except Err (Comment × State × List Event) := do
  let some document := Document.getById st docId
    | throw Err.NotFound
  let some customForm := CustomForm.getById st document.customForm
    | throw Err.InternalError
  if !fieldCommentable customForm.allowComments body.field then
    throw Err.InvalidParam
  let some cur := DocumentVersion.getById st document.currentVersion
    | throw Err.InternalError
  match cur.content.closingDate with
  | some closingDate =>
    if closingDate < now then
      throw Err.Closed
  | none => pure ()
  let newComment : Comment :=
    { id := st.nextId
      user := user
      document := document.id
      version := cur.id
      field := body.field
      content := body.content
      decoration := body.decoration
      resolved := false
      reply := none }
  let docs' := st.documents.map
    (fun d => if d.id == docId then { d with commentsCount := d.commentsCount + 1 } else d)
  pure (newComment,
    { st with
      comments := newComment :: st.comments
      documents := docs'
      nextId := st.nextId + 1 },
    [])

/-- Modelled from the spec: the per-comment effect of Comment.resolve
(db-api, not under src) — the comment with the given id gets resolved=true,
idempotently; every other comment is untouched. -/
def resolveMark (commentId : Nat) (c : Comment) : Comment :=
  if c.id == commentId then { c with resolved := true } else c

/-- Modelled from the spec: the per-comment effect of Comment.reply
(db-api, not under src) — the comment with the given id gets its reply
overwritten; every other comment is untouched. -/
def replyMark (commentId : Nat) (replyText : String) (c : Comment) : Comment :=
  if c.id == commentId then { c with reply := some replyText } else c

/-- POST /documents/:id/comments/:idComment/resolve (route resolveComment):
Forbidden unless the acting user is the author of the document named in the
request; Comment.resolve (modelled from the spec: sets resolved=true,
idempotent) is applied to the comment id with no check that the comment
belongs to the document; a comment-resolved event is emitted. -/
def resolveComment (st : State) (user : Nat) (docId commentId : Nat) :
    Except Err (Option Comment × State × List Event) := do
  let some document := Document.getById st docId
    | throw Err.InternalError
  if !(user == document.author) then
    throw Err.Forbidden
  let comments' := st.comments.map (resolveMark commentId)
  let commentResolved := comments'.find? (fun c => c.id == commentId)
  pure (commentResolved, { st with comments := comments' },
    [Event.commentResolved commentId])

/-- Modelled from the spec: Like.create (db-api, not under src) inserts a
row for the pair with a fresh id; the route only calls it when no row
exists, and the store must not create duplicates. -/
def Like.createRow (st : State) (user commentId : Nat) : State :=
  { st with
    likes := { id := st.nextId, user := user, comment := commentId } :: st.likes
    nextId := st.nextId + 1 }

/-- Modelled from the spec: Like.remove (db-api, not under src) deletes the
row with the given id. -/
def Like.removeRow (st : State) (likeId : Nat) : State :=
  { st with likes := st.likes.filter (fun l => !(l.id == likeId)) }

/-- POST /documents/:id/comments/:idComment/like (route likeComment): when
no Like row exists for the (user, comment) pair one is created and returned
— emitting a comment-liked event exactly when the liker is the author of
the document named in the request — and when one exists it is removed and
an explicit null is returned. -/
def likeComment (st : State) (user : Nat) (docId commentId : Nat) :
    Except Err (Option Like × State × List Event) := do
  match Like.getPair st user commentId with
  | none =>
    let some document := Document.getById st docId
      | throw Err.InternalError
    let isTheAuthor := user == document.author
    let createdLike : Like := { id := st.nextId, user := user, comment := commentId }
    let evs := if isTheAuthor then [Event.commentLiked commentId] else []
    pure (some createdLike, Like.createRow st user commentId, evs)
  | some like =>
    pure (none, Like.removeRow st like.id, [])

/-- POST /documents/:id/comments/:idComment/reply (reply route): Forbidden
unless the acting user is the author of the document named in the request;
Comment.reply (modelled from the spec: overwrites any prior reply) is
applied to the comment id with no check that the comment belongs to the
document. -/
def replyComment (st : State) (user : Nat) (docId commentId : Nat)
    (replyText : String) : Except Err (Option Comment × State × List Event) := do
  let some document := Document.getById st docId
    | throw Err.InternalError
  if !(user == document.author) then
    throw Err.Forbidden
  let comments' := st.comments.map (replyMark commentId replyText)
  let commentUpdated := comments'.find? (fun c => c.id == commentId)
  pure (commentUpdated, { st with comments := comments' }, [])

/-- Versioning invariant of a state: version ids are below the id supply,
version ids and per-document version numbers identify versions, and the
current version of every document belongs to it and carries the largest
version number of the document. -/
abbrev WF (st : State) : Prop :=
  (∀ v ∈ st.versions, v.id < st.nextId) ∧
  (∀ v ∈ st.versions, ∀ w ∈ st.versions, v.id = w.id → v = w) ∧
  (∀ v ∈ st.versions, ∀ w ∈ st.versions,
    v.document = w.document → v.version = w.version → v = w) ∧
  (∀ d ∈ st.documents, ∀ cur ∈ st.versions, cur.id = d.currentVersion →
    cur.document = d.id ∧
    ∀ w ∈ st.versions, w.document = d.id → w.version ≤ cur.version)

/-- Like-store invariant: like ids are below the id supply and both the id
and the (user, comment) pair identify a like. -/
abbrev LikeInv (st : State) : Prop :=
  (∀ l ∈ st.likes, l.id < st.nextId) ∧
  (∀ l1 ∈ st.likes, ∀ l2 ∈ st.likes, l1.id = l2.id → l1 = l2) ∧
  (∀ l1 ∈ st.likes, ∀ l2 ∈ st.likes,
    l1.user = l2.user → l1.comment = l2.comment → l1 = l2)

/-- State with the stored closed value of one document replaced, used to
show that the flag delivered by getDocument ignores it. -/
def setStoredClosed (st : State) (docId : Nat) (b : Option Bool) : State :=
  { st with documents :=
      (st.documents.map
        (fun d => if d.id == docId then { d with closedStored := b } else d)) }

/-- Events of a route result, dropping the payload and the state. -/
def routeEvents {α : Type} : Except Err (α × State × List Event) → Option (List Event)
  | .ok (_, _, evs) => some evs
  | .error _ => none

/-- True when a result is a success. -/
def isOkResult {ε α : Type} : Except ε α → Bool
  | .ok _ => true
  | .error _ => false

/-- Sample custom form with one commentable field. -/
def formA : CustomForm := { id := 10, slug := "form-a", allowComments := ["brief"] }

/-- Sample current version of the sample document. -/
def verA : DocumentVersion :=
  { id := 100, document := 1, version := 3
    content := { closingDate := none, data := "v3" }, contributions := [] }

/-- Sample published document authored by user 1. -/
def docA : Document :=
  { id := 1, author := 1, customForm := 10, published := true
    closedStored := none, currentVersion := 100, commentsCount := 0 }

/-- Sample comment by user 2 on the sample document. -/
def comA : Comment :=
  { id := 50, user := 2, document := 1, version := 100, field := "brief"
    content := "a remark", decoration := none, resolved := false, reply := none }

/-- Sample comment that belongs to a different document (id 2). -/
def comB : Comment :=
  { id := 51, user := 2, document := 2, version := 90, field := "brief"
    content := "other doc", decoration := none, resolved := false, reply := none }

/-- Sample comment authored by user 1, the author of the sample document. -/
def comC : Comment :=
  { id := 52, user := 1, document := 1, version := 100, field := "brief"
    content := "self", decoration := none, resolved := false, reply := none }

/-- Main sample state: one published document with one version and three
comments, no likes, creation limit 2. -/
def stA : State :=
  { documents := [docA], versions := [verA], comments := [comA, comB, comC]
    likes := [], forms := [formA], community := { documentCreationLimit := 2 }
    nextId := 200 }

/-- Sample state at the creation limit: two documents of author 1. -/
def stB : State :=
  { stA with documents := [docA,
      { id := 2, author := 1, customForm := 10, published := false
        closedStored := none, currentVersion := 90, commentsCount := 0 }] }

/-- Sample version that closed five units before time zero. -/
def verC : DocumentVersion :=
  { verA with content := { closingDate := some (-5), data := "v3" } }

/-- Sample state whose document is past its closing date. -/
def stC : State := { stA with versions := [verC] }

/-- Sample state with an unpublished document. -/
def stD : State :=
  { stA with documents := [{ docA with published := false }] }

/-- Sample state in which user 2 already likes the sample comment. -/
def stL : State :=
  { stA with likes := [{ id := 150, user := 2, comment := 50 }] }

/-- Sample update body carrying one contribution. -/
def bodyW : UpdateBody :=
  { published := none, closed := none, decorations := []
    content := { closingDate := none, data := "v4" }, contributions := [50] }

/-- Payload delivered by getDocument for the sample state to its author. -/
def pA : GetPayload :=
  { document := docA, closed := false, isAuthor := true, aggregates := none }

/-- Version created by the sample contribution-bearing update. -/
def verNew : DocumentVersion :=
  { id := 200, document := 1, version := 4
    content := { closingDate := none, data := "v4" }, contributions := [50] }

/-- Sample document after its pointer advanced to the new version. -/
def docA2 : Document := { docA with currentVersion := 200 }

/-- Sample state after the contribution-bearing update. -/
def stW' : State :=
  { stA with documents := [docA2], versions := [verNew, verA], nextId := 201 }

/-- Sample update body with no contributions. -/
def bodyE : UpdateBody :=
  { published := none, closed := none, decorations := []
    content := { closingDate := none, data := "v4" }, contributions := [] }

/-- Sample current version after its content was amended in place. -/
def verE : DocumentVersion :=
  { verA with content := { closingDate := none, data := "v4" } }

/-- Sample state after the in-place amendment. -/
def stE' : State := { stA with versions := [verE] }

/-- Sample state after the sample comment has been resolved. -/
def stA1 : State :=
  { stA with comments := [{ comA with resolved := true }, comB, comC] }

/-- Decidable equality of Except results, so that witnesses evaluate by
decide. -/
instance exceptDecEq {ε α : Type} [DecidableEq ε] [DecidableEq α] :
    DecidableEq (Except ε α)
  | .error e1, .error e2 =>
    if h : e1 = e2 then .isTrue (by rw [h])
    else .isFalse (by intro he; injection he; contradiction)
  | .error _, .ok _ => .isFalse (by intro h; exact Except.noConfusion h)
  | .ok _, .error _ => .isFalse (by intro h; exact Except.noConfusion h)
  | .ok a1, .ok a2 =>
    if h : a1 = a2 then .isTrue (by rw [h])
    else .isFalse (by intro he; injection he; contradiction)

/-- Reduction of find? over a map that rewrites exactly the entries
matched by the predicate, with the rewrite preserving matching. -/
theorem find?_map_replace {α : Type} (p : α → Bool) (f : α → α)
    (hf : ∀ a, p a = true → p (f a) = true) (l : List α) (a0 : α)
    (h : l.find? p = some a0) :
    (l.map (fun a => if p a then f a else a)).find? p = some (f a0) := by
  induction l with
  | nil => simp at h
  | cons x t ih =>
    cases hx : p x with
    | true =>
      rw [List.find?_cons_of_pos _ hx] at h
      injection h with h
      subst h
      simp [hx, List.find?_cons_of_pos _ (hf _ hx)]
    | false =>
      have hneg : ¬ p x = true := by simp [hx]
      rw [List.find?_cons_of_neg _ hneg] at h
      simp only [List.map_cons, if_neg hneg]
      rw [List.find?_cons_of_neg _ hneg]
      exact ih h

/-- Bind of an error propagates the error. -/
theorem error_bind {ε α β : Type} (e : ε) (f : α → Except ε β) :
    (Except.error e >>= f : Except ε β) = Except.error e := rfl

/-- Bind of an ok applies the continuation. -/
theorem ok_bind {ε α β : Type} (a : α) (f : α → Except ε β) :
    (Except.ok a >>= f : Except ε β) = f a := rfl

/-- Throw is the error constructor. -/
theorem throw_eq_error {ε α : Type} (e : ε) :
    (throw e : Except ε α) = Except.error e := rfl

/-- Pure is the ok constructor. -/
theorem pure_eq_ok {ε α : Type} (a : α) :
    (pure a : Except ε α) = Except.ok a := rfl

/-- C3: a comment creation naming a field outside the allowComments set of
the custom form of the document fails with InvalidParam for every acting
user, regardless of role or authorship, and no comment is stored. -/
theorem C3_field_not_commentable (now : Int) (st : State) (user docId : Nat)
    (body : CommentBody) (document : Document)
    (hdoc : Document.getById st docId = some document)
    (customForm : CustomForm)
    (hform : CustomForm.getById st document.customForm = some customForm)
    (hfield : body.field ∉ customForm.allowComments) :
    createComment now st user docId body = .error Err.InvalidParam := by
  have hfc : fieldCommentable customForm.allowComments body.field = false := by
    unfold fieldCommentable
    rw [List.find?_eq_none.mpr]
    intro x hx
    simp only [beq_iff_eq]
    intro heq
    exact hfield (heq ▸ hx)
  simp [createComment, hdoc, hform, hfc, throw_eq_error, error_bind, ok_bind]

/-- Witness for C3 at a concrete state: the field zzz is not commentable
on the sample form. -/
theorem C3_field_not_commentable_witness :
    createComment 0 stA 2 1 { field := "zzz", content := "c", decoration := none }
      = .error Err.InvalidParam :=
  C3_field_not_commentable 0 stA 2 1 _ docA (by decide) formA (by decide) (by decide)

/-- C2: document creation fails with PolicyViolation when the author
already has at least the community limit of documents, counted over all of
their documents regardless of published state (no document is created, the
result being an error); it succeeds when the count is one below the limit
and the form slug resolves. -/
theorem C2_creation_limit (st : State) (user : Nat) (body : CreateBody) :
    (Document.countAuthorDocuments st user ≥ st.community.documentCreationLimit →
      postDocument st user body = .error Err.PolicyViolation) ∧
    (Document.countAuthorDocuments st user + 1 = st.community.documentCreationLimit →
      ∀ customForm, CustomForm.getBySlug st body.customForm = some customForm →
      postDocument st user body = .ok
        ({ id := st.nextId + 1, author := user, customForm := customForm.id
           published := false, closedStored := none
           currentVersion := st.nextId, commentsCount := 0 },
         { st with
            documents :=
              { id := st.nextId + 1, author := user, customForm := customForm.id
                published := false, closedStored := none
                currentVersion := st.nextId, commentsCount := 0 } :: st.documents
            versions :=
              { id := st.nextId, document := st.nextId + 1, version := 1
                content := body.content, contributions := [] } :: st.versions
            nextId := st.nextId + 2 },
         [Event.documentCloses (st.nextId + 1) body.content.closingDate])) := by
  constructor
  · intro hge
    simp [postDocument, hge, throw_eq_error, error_bind]
  · intro hcount customForm hform
    have hnge : ¬ Document.countAuthorDocuments st user ≥
        st.community.documentCreationLimit := by omega
    simp [postDocument, hnge, hform, throw_eq_error, error_bind, ok_bind, pure_eq_ok]

/-- Witness for C2: at the limit (two documents, limit two) creation fails
with PolicyViolation; one below the limit (one document, limit two) it
succeeds with the created document. -/
theorem C2_creation_limit_witness :
    postDocument stB 1 { customForm := "form-a", content := { closingDate := none, data := "d" } }
      = .error Err.PolicyViolation ∧
    postDocument stA 1 { customForm := "form-a", content := { closingDate := none, data := "d" } }
      = .ok ({ id := 201, author := 1, customForm := 10, published := false
               closedStored := none, currentVersion := 200, commentsCount := 0 },
             { stA with
                documents := [{ id := 201, author := 1, customForm := 10, published := false
                                closedStored := none, currentVersion := 200,
                                commentsCount := 0 }, docA]
                versions := [{ id := 200, document := 201, version := 1
                               content := { closingDate := none, data := "d" }
                               contributions := [] }, verA]
                nextId := 202 },
             [Event.documentCloses 201 none]) :=
  ⟨(C2_creation_limit stB 1 _).1 (by decide),
   (C2_creation_limit stA 1 _).2 (by decide) formA (by decide)⟩

/-- C4 (amended): on a document whose current version carries a
closingDate strictly earlier than now, a comment creation whose field
passes the commentable-field guard fails with Closed and stores nothing;
when the current version has no closingDate the operation never fails with
Closed. The unamended claim fails because the field guard runs before the
closed check, see the counterexample. -/
theorem C4_closed_document (now : Int) (st : State) (user docId : Nat)
    (body : CommentBody) (document : Document)
    (hdoc : Document.getById st docId = some document)
    (customForm : CustomForm)
    (hform : CustomForm.getById st document.customForm = some customForm)
    (cur : DocumentVersion)
    (hcur : DocumentVersion.getById st document.currentVersion = some cur) :
    (fieldCommentable customForm.allowComments body.field = true →
      ∀ dt, cur.content.closingDate = some dt → dt < now →
        createComment now st user docId body = .error Err.Closed) ∧
    (cur.content.closingDate = none →
      createComment now st user docId body ≠ .error Err.Closed) := by
  constructor
  · intro hfc dt hdt hlt
    simp [createComment, hdoc, hform, hfc, hcur, hdt, hlt, throw_eq_error,
      error_bind, ok_bind]
  · intro hnone
    cases hfc : fieldCommentable customForm.allowComments body.field
    · simp [createComment, hdoc, hform, hfc, throw_eq_error, error_bind]
    · simp [createComment, hdoc, hform, hfc, hcur, hnone, throw_eq_error,
        error_bind, ok_bind, pure_eq_ok]

/-- Counterexample to C4 as stated: in stC the current version closed five
units before time zero, yet a comment naming the non commentable field zzz
fails with InvalidParam, not Closed, because the field guard runs first. -/
theorem C4_counterexample :
    Document.getById stC 1 = some docA ∧
    (DocumentVersion.getById stC docA.currentVersion).map
      (fun v => v.content.closingDate) = some (some (-5)) ∧
    (-5 : Int) < 0 ∧
    createComment 0 stC 2 1 { field := "zzz", content := "c", decoration := none }
      = .error Err.InvalidParam ∧
    Err.InvalidParam ≠ Err.Closed := by decide

/-- Witness for C4: a comment on the commentable field brief of the closed
document fails with Closed; on the open document it does not fail with
Closed. -/
theorem C4_closed_document_witness :
    createComment 0 stC 2 1 { field := "brief", content := "c", decoration := none }
      = .error Err.Closed ∧
    createComment 0 stA 2 1 { field := "brief", content := "c", decoration := none }
      ≠ .error Err.Closed :=
  ⟨(C4_closed_document 0 stC 2 1 _ docA (by decide) formA (by decide)
      verC (by decide)).1 (by decide) (-5) (by decide) (by decide),
   (C4_closed_document 0 stA 2 1 _ docA (by decide) formA (by decide)
      verA (by decide)).2 (by decide)⟩

/-- Successful getDocument delivers the closed flag derived from the
closingDate of the current version against now. -/
theorem getDocument_closed_eq (now : Int) (st : State) (user : Option Nat)
    (docId : Nat) (document : Document)
    (hdoc : Document.getById st docId = some document)
    (cur : DocumentVersion)
    (hcur : DocumentVersion.getById st document.currentVersion = some cur)
    (p : GetPayload) (hok : getDocument now st user docId = .ok p) :
    p.closed = (match cur.content.closingDate with
      | some dt => decide (now > dt)
      | none => false) := by
  simp only [getDocument, hdoc, hcur] at hok
  split at hok
  · rw [throw_eq_error, error_bind] at hok
    exact absurd hok (by simp)
  · rw [pure_eq_ok, ok_bind, pure_eq_ok] at hok
    injection hok with h
    subst h
    rfl

/-- C8: the closed flag delivered by getDocument is true exactly when now
is past the closingDate of the current version (never true when absent),
and replacing the stored closed value of the document — the value updates
persist from the request body — does not change the delivered flag. -/
theorem C8_closed_flag_derived (now : Int) (st : State) (user : Option Nat)
    (docId : Nat) (document : Document)
    (hdoc : Document.getById st docId = some document)
    (cur : DocumentVersion)
    (hcur : DocumentVersion.getById st document.currentVersion = some cur)
    (p : GetPayload) (hok : getDocument now st user docId = .ok p) :
    p.closed = (match cur.content.closingDate with
      | some dt => decide (now > dt)
      | none => false) ∧
    ∀ b : Option Bool, ∀ p' : GetPayload,
      getDocument now (setStoredClosed st docId b) user docId = .ok p' →
      p'.closed = p.closed := by
  have h1 := getDocument_closed_eq now st user docId document hdoc cur hcur p hok
  refine ⟨h1, ?_⟩
  intro b p' hok'
  have hdoc' : Document.getById (setStoredClosed st docId b) docId
      = some { document with closedStored := b } := by
    unfold Document.getById setStoredClosed
    exact find?_map_replace _ _ (fun a ha => by simpa using ha) _ document hdoc
  have hcur' : DocumentVersion.getById (setStoredClosed st docId b)
      ({ document with closedStored := b }).currentVersion = some cur := hcur
  have h2 := getDocument_closed_eq now (setStoredClosed st docId b) user docId
    _ hdoc' cur hcur' p' hok'
  rw [h1, h2]

/-- Witness for C8: the delivered flag of the sample state is false, and
stays false after the stored closed value is set to true. -/
theorem C8_closed_flag_derived_witness :
    pA.closed = false ∧
    ({ document := { docA with closedStored := some true }, closed := false
       isAuthor := true, aggregates := none } : GetPayload).closed = pA.closed :=
  have h := C8_closed_flag_derived 0 stA (some 1) 1 docA (by decide) verA
    (by decide) pA (by decide)
  ⟨h.1, h.2 (some true) _ (by decide)⟩

/-- C9: a draft document is served only to its author — any other
requester, anonymous included, receives Forbidden, while the author
succeeds — and a published document is served to every requester with the
isAuthor flag true exactly for the author. -/
theorem C9_draft_visibility (now : Int) (st : State) (user : Option Nat)
    (docId : Nat) (document : Document)
    (hdoc : Document.getById st docId = some document)
    (cur : DocumentVersion)
    (hcur : DocumentVersion.getById st document.currentVersion = some cur) :
    (document.published = false → user ≠ some document.author →
      getDocument now st user docId = .error Err.Forbidden) ∧
    (user = some document.author →
      isOkResult (getDocument now st user docId) = true) ∧
    (document.published = true →
      (getDocument now st user docId).map GetPayload.isAuthor
        = .ok (decide (user = some document.author))) := by
  refine ⟨?_, ?_, ?_⟩
  · intro hpub hne
    cases user with
    | none =>
      simp [getDocument, hdoc, hcur, hpub, throw_eq_error, error_bind]
    | some u =>
      have hub : (u == document.author) = false := by
        simp only [beq_eq_false_iff_ne, ne_eq]
        intro h
        exact hne (by rw [h])
      simp [getDocument, hdoc, hcur, hpub, hub, throw_eq_error, error_bind]
  · intro heq
    subst heq
    simp [getDocument, hdoc, hcur, throw_eq_error, error_bind, ok_bind,
      pure_eq_ok, isOkResult]
  · intro hpub
    cases user with
    | none =>
      simp [getDocument, hdoc, hcur, hpub, throw_eq_error, error_bind,
        ok_bind, pure_eq_ok, Except.map]
    | some u =>
      by_cases hu : u = document.author
      · subst hu
        simp [getDocument, hdoc, hcur, hpub, throw_eq_error, error_bind,
          ok_bind, pure_eq_ok, Except.map]
      · have : (u == document.author) = false := by simp [hu]
        simp [getDocument, hdoc, hcur, hpub, this, throw_eq_error, error_bind,
          ok_bind, pure_eq_ok, Except.map, hu]

/-- Witness for C9: the draft is Forbidden to user 2 and to the anonymous
requester, served to its author, and the published document is served to
user 2 with isAuthor false. -/
theorem C9_draft_visibility_witness :
    getDocument 0 stD (some 2) 1 = .error Err.Forbidden ∧
    getDocument 0 stD none 1 = .error Err.Forbidden ∧
    isOkResult (getDocument 0 stD (some 1) 1) = true ∧
    (getDocument 0 stA (some 2) 1).map GetPayload.isAuthor = .ok false :=
  ⟨(C9_draft_visibility 0 stD (some 2) 1 { docA with published := false }
      (by decide) verA (by decide)).1 (by decide) (by decide),
   (C9_draft_visibility 0 stD none 1 { docA with published := false }
      (by decide) verA (by decide)).1 (by decide) (by decide),
   (C9_draft_visibility 0 stD (some 1) 1 { docA with published := false }
      (by decide) verA (by decide)).2.1 (by decide),
   (C9_draft_visibility 0 stA (some 2) 1 docA
      (by decide) verA (by decide)).2.2 (by decide)⟩

/-- Applying the resolve rewrite twice is the same as applying it once. -/
theorem resolveMark_idem (commentId : Nat) (l : List Comment) :
    (l.map (resolveMark commentId)).map (resolveMark commentId)
      = l.map (resolveMark commentId) := by
  rw [List.map_map]
  congr 1
  funext c
  simp only [Function.comp_apply, resolveMark]
  by_cases h : (c.id == commentId) = true
  · simp [h]
  · simp [h]

/-- C7: resolve fails with Forbidden when the acting user is not the author
of the document (the result is an error, so no comment changes); for the
author it succeeds with resolved set to true on the targeted comment, and
resolving again succeeds with no error and the same, unchanged state. -/
theorem C7_resolve_idempotent (st : State) (user docId commentId : Nat)
    (document : Document)
    (hdoc : Document.getById st docId = some document) :
    (user ≠ document.author →
      resolveComment st user docId commentId = .error Err.Forbidden) ∧
    (user = document.author →
      resolveComment st user docId commentId = .ok
        ((st.comments.map (resolveMark commentId)).find? (fun c => c.id == commentId),
         { st with comments := st.comments.map (resolveMark commentId) },
         [Event.commentResolved commentId]) ∧
      (∀ c ∈ st.comments.map (resolveMark commentId),
        c.id = commentId → c.resolved = true) ∧
      resolveComment { st with comments := st.comments.map (resolveMark commentId) }
          user docId commentId = .ok
        ((st.comments.map (resolveMark commentId)).find? (fun c => c.id == commentId),
         { st with comments := st.comments.map (resolveMark commentId) },
         [Event.commentResolved commentId])) := by
  constructor
  · intro hne
    have hub : (user == document.author) = false := by simp [hne]
    simp [resolveComment, hdoc, hub, throw_eq_error, error_bind]
  · intro heq
    subst heq
    have hdoc' : st.documents.find? (fun d => d.id == docId) = some document := hdoc
    refine ⟨?_, ?_, ?_⟩
    · simp [resolveComment, hdoc, throw_eq_error, error_bind, ok_bind, pure_eq_ok]
    · intro c hc hid
      obtain ⟨a, ha, rfl⟩ := List.mem_map.mp hc
      unfold resolveMark at hid ⊢
      by_cases h : (a.id == commentId) = true
      · simp [h]
      · rw [if_neg h] at hid ⊢
        exact absurd (by simpa using hid) (by simpa using h)
    · simp only [resolveComment, Document.getById, List.find?, hdoc',
        beq_self_eq_true, Bool.not_true, Bool.false_eq_true, if_false,
        throw_eq_error, error_bind, ok_bind, pure_eq_ok]
      rw [resolveMark_idem]

/-- Witness for C7: user 3 is refused; the author resolves the sample
comment, and resolving it again returns the same result and state. -/
theorem C7_resolve_idempotent_witness :
    resolveComment stA 3 1 50 = .error Err.Forbidden ∧
    resolveComment stA 1 1 50 = .ok (some { comA with resolved := true }, stA1,
      [Event.commentResolved 50]) ∧
    resolveComment stA1 1 1 50 = .ok (some { comA with resolved := true }, stA1,
      [Event.commentResolved 50]) :=
  have h := (C7_resolve_idempotent stA 1 1 50 docA (by decide)).2 rfl
  ⟨(C7_resolve_idempotent stA 3 1 50 docA (by decide)).1 (by decide),
   h.1, h.2.2⟩

/-- C10: resolve and reply act on the comment id without checking that the
comment belongs to the document in the request: the author of document
docId resolves, and replies to, a comment stored against a different
document, and the comment is mutated. -/
theorem C10_cross_document (st : State) (user docId commentId : Nat)
    (document : Document) (hdoc : Document.getById st docId = some document)
    (huser : user = document.author)
    (comment : Comment) (hcom : Comment.getById st commentId = some comment)
    (hcross : comment.document ≠ docId) (text : String) :
    resolveComment st user docId commentId = .ok
      (some { comment with resolved := true },
       { st with comments := st.comments.map (resolveMark commentId) },
       [Event.commentResolved commentId]) ∧
    Comment.getById { st with comments := st.comments.map (resolveMark commentId) }
      commentId = some { comment with resolved := true } ∧
    replyComment st user docId commentId text = .ok
      (some { comment with reply := some text },
       { st with comments := st.comments.map (replyMark commentId text) },
       []) ∧
    Comment.getById { st with comments := st.comments.map (replyMark commentId text) }
      commentId = some { comment with reply := some text } := by
  subst huser
  unfold Comment.getById at hcom
  have hfind1 : (st.comments.map (resolveMark commentId)).find?
      (fun c => c.id == commentId) = some { comment with resolved := true } :=
    find?_map_replace (fun c => c.id == commentId)
      (fun c => { c with resolved := true }) (fun a ha => by simpa using ha)
      st.comments comment hcom
  have hfind2 : (st.comments.map (replyMark commentId text)).find?
      (fun c => c.id == commentId) = some { comment with reply := some text } :=
    find?_map_replace (fun c => c.id == commentId)
      (fun c => { c with reply := some text }) (fun a ha => by simpa using ha)
      st.comments comment hcom
  have hdoc' : st.documents.find? (fun d => d.id == docId) = some document := hdoc
  refine ⟨?_, hfind1, ?_, hfind2⟩
  · simp only [resolveComment, Document.getById, hdoc', beq_self_eq_true,
      Bool.not_true, Bool.false_eq_true, if_false, throw_eq_error, error_bind,
      ok_bind, pure_eq_ok]
    rw [hfind1]
  · simp only [replyComment, Document.getById, hdoc', beq_self_eq_true,
      Bool.not_true, Bool.false_eq_true, if_false, throw_eq_error, error_bind,
      ok_bind, pure_eq_ok]
    rw [hfind2]

/-- Witness for C10: comment 51 belongs to document 2, yet the author of
document 1 resolves it and replies to it through document 1. -/
theorem C10_cross_document_witness :
    resolveComment stA 1 1 51 = .ok (some { comB with resolved := true },
      { stA with comments := [comA, { comB with resolved := true }, comC] },
      [Event.commentResolved 51]) ∧
    replyComment stA 1 1 51 "noted" = .ok (some { comB with reply := some "noted" },
      { stA with comments := [comA, { comB with reply := some "noted" }, comC] },
      []) :=
  have h := C10_cross_document stA 1 1 51 docA (by decide) (by decide) comB
    (by decide) (by decide) "noted"
  ⟨h.1, h.2.2.1⟩

/-- The like route on a pair with no row reduces to a creation. -/
theorem likeComment_none_eq (st : State) (user docId commentId : Nat)
    (document : Document) (hdoc : Document.getById st docId = some document)
    (hnone : Like.getPair st user commentId = none) :
    likeComment st user docId commentId = .ok
      (some { id := st.nextId, user := user, comment := commentId },
       Like.createRow st user commentId,
       if user == document.author then [Event.commentLiked commentId] else []) := by
  simp only [likeComment, hnone, hdoc, pure_eq_ok]

/-- The like route on a pair with an existing row reduces to its removal. -/
theorem likeComment_some_eq (st : State) (user docId commentId : Nat) (lk0 : Like)
    (hsome : Like.getPair st user commentId = some lk0) :
    likeComment st user docId commentId = .ok (none, Like.removeRow st lk0.id, []) := by
  simp only [likeComment, hsome, pure_eq_ok]

/-- After a creation, Like.get finds exactly the created row. -/
theorem getPair_createRow (st : State) (user commentId : Nat) :
    Like.getPair (Like.createRow st user commentId) user commentId
      = some { id := st.nextId, user := user, comment := commentId } := by
  unfold Like.getPair Like.createRow
  rw [List.find?_cons_of_pos _ (by simp)]

/-- After removing the row found for the pair, Like.get finds none. -/
theorem getPair_removeRow_eq_none (st : State) (user commentId : Nat) (lk0 : Like)
    (hinv : LikeInv st) (hsome : Like.getPair st user commentId = some lk0) :
    Like.getPair (Like.removeRow st lk0.id) user commentId = none := by
  obtain ⟨hlt, hidinj, hpairinj⟩ := hinv
  unfold Like.getPair at hsome
  have hmem : lk0 ∈ st.likes := List.mem_of_find?_eq_some hsome
  have hpred := List.find?_some hsome
  simp only [Bool.and_eq_true, beq_iff_eq] at hpred
  unfold Like.getPair Like.removeRow
  rw [List.find?_eq_none]
  intro x hx hpx
  have hx' := List.mem_filter.mp hx
  simp only [Bool.and_eq_true, beq_iff_eq] at hpx
  have hxeq : x = lk0 := hpairinj x hx'.1 lk0 hmem
    (hpx.1.trans hpred.1.symm) (hpx.2.trans hpred.2.symm)
  have hfilter := hx'.2
  rw [hxeq] at hfilter
  simp at hfilter

/-- Removal preserves the like-store invariant. -/
theorem likeInv_removeRow (st : State) (likeId : Nat) (hinv : LikeInv st) :
    LikeInv (Like.removeRow st likeId) := by
  obtain ⟨hlt, hidinj, hpairinj⟩ := hinv
  refine ⟨?_, ?_, ?_⟩
  · intro l hl
    exact hlt l (List.mem_filter.mp hl).1
  · intro l1 h1 l2 h2 hid
    exact hidinj l1 (List.mem_filter.mp h1).1 l2 (List.mem_filter.mp h2).1 hid
  · intro l1 h1 l2 h2 hu hc
    exact hpairinj l1 (List.mem_filter.mp h1).1 l2 (List.mem_filter.mp h2).1 hu hc

/-- Creation of an absent pair preserves the like-store invariant. -/
theorem likeInv_createRow (st : State) (user commentId : Nat) (hinv : LikeInv st)
    (hnone : Like.getPair st user commentId = none) :
    LikeInv (Like.createRow st user commentId) := by
  obtain ⟨hlt, hidinj, hpairinj⟩ := hinv
  unfold Like.getPair at hnone
  have habs := List.find?_eq_none.mp hnone
  refine ⟨?_, ?_, ?_⟩
  · intro l hl
    rcases List.mem_cons.mp hl with h | h
    · subst h; exact Nat.lt_succ_self _
    · exact Nat.lt_trans (hlt l h) (Nat.lt_succ_self _)
  · intro l1 h1 l2 h2 hid
    rcases List.mem_cons.mp h1 with e1 | m1 <;> rcases List.mem_cons.mp h2 with e2 | m2
    · rw [e1, e2]
    · exfalso; subst e1; have := hlt l2 m2; simp at hid; omega
    · exfalso; subst e2; have := hlt l1 m1; simp at hid; omega
    · exact hidinj l1 m1 l2 m2 hid
  · intro l1 h1 l2 h2 hu hc
    rcases List.mem_cons.mp h1 with e1 | m1 <;> rcases List.mem_cons.mp h2 with e2 | m2
    · rw [e1, e2]
    · exfalso
      subst e1
      exact habs l2 m2 (by simp [← hu, ← hc])
    · exfalso
      subst e2
      exact habs l1 m1 (by simp [hu, hc])
    · exact hpairinj l1 m1 l2 m2 hu hc

/-- C5: the like route is a toggle keeping at most one Like per
(user, comment) pair: with no row present one is created and returned to
the caller, and Like.get then finds exactly it; with a row present it is
removed and an explicit empty result is returned, distinguishable from the
creation answer, and Like.get then finds none; two consecutive toggles
restore the original liked state. -/
theorem C5_like_toggle (st : State) (user docId commentId : Nat)
    (document : Document) (hdoc : Document.getById st docId = some document)
    (hinv : LikeInv st) :
    (Like.getPair st user commentId = none →
      likeComment st user docId commentId = .ok
        (some { id := st.nextId, user := user, comment := commentId },
         Like.createRow st user commentId,
         if user == document.author then [Event.commentLiked commentId] else []) ∧
      Like.getPair (Like.createRow st user commentId) user commentId
        = some { id := st.nextId, user := user, comment := commentId } ∧
      LikeInv (Like.createRow st user commentId)) ∧
    (∀ lk0, Like.getPair st user commentId = some lk0 →
      likeComment st user docId commentId = .ok (none, Like.removeRow st lk0.id, []) ∧
      Like.getPair (Like.removeRow st lk0.id) user commentId = none ∧
      LikeInv (Like.removeRow st lk0.id)) ∧
    (∀ r1 st1 evs1, likeComment st user docId commentId = .ok (r1, st1, evs1) →
      ∀ r2 st2 evs2, likeComment st1 user docId commentId = .ok (r2, st2, evs2) →
      (Like.getPair st2 user commentId).isSome
        = (Like.getPair st user commentId).isSome) := by
  refine ⟨?_, ?_, ?_⟩
  · intro hnone
    exact ⟨likeComment_none_eq st user docId commentId document hdoc hnone,
      getPair_createRow st user commentId,
      likeInv_createRow st user commentId hinv hnone⟩
  · intro lk0 hsome
    exact ⟨likeComment_some_eq st user docId commentId lk0 hsome,
      getPair_removeRow_eq_none st user commentId lk0 hinv hsome,
      likeInv_removeRow st lk0.id hinv⟩
  · intro r1 st1 evs1 hok1 r2 st2 evs2 hok2
    cases hget : Like.getPair st user commentId with
    | none =>
      rw [likeComment_none_eq st user docId commentId document hdoc hget] at hok1
      simp only [Except.ok.injEq, Prod.mk.injEq] at hok1
      obtain ⟨-, hst1, -⟩ := hok1
      subst hst1
      have hget1 := getPair_createRow st user commentId
      rw [likeComment_some_eq _ user docId commentId _ hget1] at hok2
      simp only [Except.ok.injEq, Prod.mk.injEq] at hok2
      obtain ⟨-, hst2, -⟩ := hok2
      subst hst2
      rw [getPair_removeRow_eq_none _ user commentId _
        (likeInv_createRow st user commentId hinv hget) hget1]
    | some lk0 =>
      rw [likeComment_some_eq st user docId commentId lk0 hget] at hok1
      simp only [Except.ok.injEq, Prod.mk.injEq] at hok1
      obtain ⟨-, hst1, -⟩ := hok1
      subst hst1
      have hget1 := getPair_removeRow_eq_none st user commentId lk0 hinv hget
      have hdoc1 : Document.getById (Like.removeRow st lk0.id) docId
          = some document := hdoc
      rw [likeComment_none_eq _ user docId commentId document hdoc1 hget1] at hok2
      simp only [Except.ok.injEq, Prod.mk.injEq] at hok2
      obtain ⟨-, hst2, -⟩ := hok2
      subst hst2
      rw [getPair_createRow _ user commentId]
      rfl

/-- Witness for C5: the first toggle by user 2 creates the like, the
toggle from the liked state removes it, and two toggles in a row return to
the unliked state. -/
theorem C5_like_toggle_witness :
    likeComment stA 2 1 50 = .ok
      (some { id := 200, user := 2, comment := 50 }, Like.createRow stA 2 50, []) ∧
    likeComment stL 2 1 50 = .ok (none, Like.removeRow stL 150, []) ∧
    Like.getPair (Like.removeRow stL 150) 2 50 = none ∧
    (Like.getPair (Like.removeRow (Like.createRow stA 2 50) 200) 2 50).isSome
      = (Like.getPair stA 2 50).isSome :=
  have h := C5_like_toggle stA 2 1 50 docA (by decide) (by decide)
  have hL := C5_like_toggle stL 2 1 50 docA (by decide) (by decide)
  have h1 := h.1 (by decide)
  have h2 := hL.2.1 { id := 150, user := 2, comment := 50 } (by decide)
  ⟨h1.1, h2.1, h2.2.1,
   h.2.2 (some { id := 200, user := 2, comment := 50 }) (Like.createRow stA 2 50)
     [] h1.1 none (Like.removeRow (Like.createRow stA 2 50) 200) []
     (likeComment_some_eq (Like.createRow stA 2 50) 2 1 50
       { id := 200, user := 2, comment := 50 } (by decide))⟩

/-- C6 (amended): the comment-liked event is emitted exactly when the
toggle creates a new Like and the liker is the author of the document in
the request, regardless of whether the liker authored the comment; in
every other case nothing is emitted. The unamended claim fails because the
route never consults the author of the comment, see the counterexample. -/
theorem C6_like_notification (st : State) (user docId commentId : Nat)
    (document : Document) (hdoc : Document.getById st docId = some document)
    (r : Option Like) (st1 : State) (evs : List Event)
    (hok : likeComment st user docId commentId = .ok (r, st1, evs)) :
    (evs = [Event.commentLiked commentId] ↔
      Like.getPair st user commentId = none ∧ user = document.author) ∧
    (evs = [Event.commentLiked commentId] ∨ evs = []) := by
  cases hget : Like.getPair st user commentId with
  | some lk0 =>
    rw [likeComment_some_eq st user docId commentId lk0 hget] at hok
    simp only [Except.ok.injEq, Prod.mk.injEq] at hok
    obtain ⟨-, -, hevs⟩ := hok
    subst hevs
    refine ⟨?_, Or.inr rfl⟩
    simp [hget]
  | none =>
    rw [likeComment_none_eq st user docId commentId document hdoc hget] at hok
    simp only [Except.ok.injEq, Prod.mk.injEq] at hok
    obtain ⟨-, -, hevs⟩ := hok
    subst hevs
    by_cases hu : (user == document.author) = true
    · rw [if_pos hu]
      exact ⟨by simp [hget, beq_iff_eq] at hu ⊢; exact hu, Or.inl rfl⟩
    · rw [if_neg hu]
      refine ⟨?_, Or.inr rfl⟩
      constructor
      · intro h; cases h
      · rintro ⟨-, hua⟩
        exact absurd (by simp [hua]) hu

/-- Counterexample to C6 as stated: user 1 likes their own comment 52 on
their own document, and the route emits the comment-liked event even
though the liker authored the comment. -/
theorem C6_counterexample :
    (Comment.getById stA 52).map Comment.user = some 1 ∧
    (Document.getById stA 1).map Document.author = some 1 ∧
    Like.getPair stA 1 52 = none ∧
    routeEvents (likeComment stA 1 1 52) = some [Event.commentLiked 52] := by
  decide

/-- Witness for C6: the toggle of user 1 — the document author — on
comment 50 creates a like and emits exactly the comment-liked event. -/
theorem C6_like_notification_witness :
    ([Event.commentLiked 50] = [Event.commentLiked 50] ↔
      Like.getPair stA 1 50 = none ∧ 1 = docA.author) ∧
    ([Event.commentLiked 50] = [Event.commentLiked 50] ∨
      ([Event.commentLiked 50] : List Event) = []) :=
  C6_like_notification stA 1 1 50 docA (by decide)
    (some { id := 200, user := 1, comment := 50 }) (Like.createRow stA 1 50)
    [Event.commentLiked 50] (by decide)

/-- C1: an authorized update with a non-empty contributions list creates a
genuinely new version, numbered one above the current version, carrying the
supplied content and the supplied contributions as its merged comment set,
and advances the currentVersion pointer of the document to it; with an
empty (or absent) contributions list no version is created and only the
content of the current version is replaced in place, every id, owner and
version number staying as it was; and afterwards no two versions of the
same document share a version number. -/
theorem C1_versioning (st : State) (user docId : Nat) (body : UpdateBody)
    (document : Document) (hdoc : Document.getById st docId = some document)
    (cur : DocumentVersion)
    (hcur : DocumentVersion.getById st document.currentVersion = some cur)
    (hwf : WF st)
    (res : Document) (st' : State) (evs : List Event)
    (hok : putDocument st user docId body = .ok (res, st', evs)) :
    (body.contributions ≠ [] →
      st'.versions = { id := st.nextId, document := document.id
                       version := cur.version + 1, content := body.content
                       contributions := body.contributions } :: st.versions ∧
      (∀ w ∈ st.versions, w.id ≠ st.nextId) ∧
      Document.getById st' docId
        = some (applyPatch document body.published body.closed (some st.nextId)) ∧
      (applyPatch document body.published body.closed (some st.nextId)).currentVersion
        = st.nextId) ∧
    (body.contributions = [] →
      st'.versions = st.versions.map (fun v =>
        if v.id == document.currentVersion then { v with content := body.content }
        else v) ∧
      Document.getById st' docId
        = some (applyPatch document body.published body.closed none)) ∧
    (∀ v1 ∈ st'.versions, ∀ v2 ∈ st'.versions,
      v1.document = v2.document → v1.version = v2.version → v1 = v2) := by
  obtain ⟨hlt, hidinj, hnuminj, hcurmax⟩ := hwf
  have hdocmem : document ∈ st.documents := List.mem_of_find?_eq_some hdoc
  have hdocid : document.id = docId := by
    have h := List.find?_some hdoc
    simpa using h
  have hcurmem : cur ∈ st.versions := List.mem_of_find?_eq_some hcur
  have hcmax := hcurmax document hdocmem cur hcurmem (by
    have h := List.find?_some hcur
    simpa using h)
  have hauth : user = document.author := by
    by_contra hne
    have hub : (user == document.author) = false := by simp [hne]
    simp only [putDocument, hdoc, hub, Bool.not_false, if_true,
      throw_eq_error, error_bind] at hok
    exact Except.noConfusion hok
  subst hauth
  simp only [putDocument, hdoc, hcur, beq_self_eq_true, Bool.not_true,
    Bool.false_eq_true, if_false, throw_eq_error, error_bind, ok_bind,
    pure_eq_ok] at hok
  by_cases hc : body.contributions = []
  · have hce : body.contributions.isEmpty = true := by simp [hc]
    simp only [hce, Bool.not_true, Bool.false_eq_true, if_false] at hok
    simp only [Except.ok.injEq, Prod.mk.injEq] at hok
    obtain ⟨-, hst, -⟩ := hok
    subst hst
    refine ⟨fun h => absurd hc h, fun _ => ⟨rfl, ?_⟩, ?_⟩
    · unfold Document.getById
      exact find?_map_replace _ _
        (fun a ha => by simp [applyPatch, hdocid]) _ document hdoc
    · intro v1 h1 v2 h2 hd hv
      obtain ⟨a1, ha1, rfl⟩ := List.mem_map.mp h1
      obtain ⟨a2, ha2, rfl⟩ := List.mem_map.mp h2
      have hgdoc : ∀ a : DocumentVersion,
          ((if a.id == document.currentVersion
            then { a with content := body.content } else a) : DocumentVersion).document
          = a.document := by
        intro a
        by_cases h : (a.id == document.currentVersion) = true
        · simp [h]
        · simp [h]
      have hgver : ∀ a : DocumentVersion,
          ((if a.id == document.currentVersion
            then { a with content := body.content } else a) : DocumentVersion).version
          = a.version := by
        intro a
        by_cases h : (a.id == document.currentVersion) = true
        · simp [h]
        · simp [h]
      rw [hgdoc a1, hgdoc a2] at hd
      rw [hgver a1, hgver a2] at hv
      rw [hnuminj a1 ha1 a2 ha2 hd hv]
  · have hce : body.contributions.isEmpty = false := by
      cases hcl : body.contributions with
      | nil => exact absurd hcl hc
      | cons x t => rfl
    simp only [hce, Bool.not_false, if_true] at hok
    simp only [Except.ok.injEq, Prod.mk.injEq] at hok
    obtain ⟨-, hst, -⟩ := hok
    subst hst
    refine ⟨fun _ => ⟨rfl, ?_, ?_, rfl⟩, fun h => absurd h hc, ?_⟩
    · intro w hw
      exact Nat.ne_of_lt (hlt w hw)
    · unfold Document.getById
      exact find?_map_replace _ _
        (fun a ha => by simp [applyPatch, hdocid]) _ document hdoc
    · intro v1 h1 v2 h2 hd hv
      rcases List.mem_cons.mp h1 with e1 | m1 <;> rcases List.mem_cons.mp h2 with e2 | m2
      · rw [e1, e2]
      · exfalso
        subst e1
        have hw := hcmax.2 v2 m2 (by simpa using hd.symm)
        simp at hv
        omega
      · exfalso
        subst e2
        have hw := hcmax.2 v1 m1 (by simpa using hd)
        simp at hv
        omega
      · exact hnuminj v1 m1 v2 m2 hd hv

/-- Witness for C1: updating the sample document with contribution 50
prepends version 4 with the new content and advances the pointer, and the
same update without contributions only rewrites the content of version 3
in place. -/
theorem C1_versioning_witness :
    stW'.versions = verNew :: stA.versions ∧
    Document.getById stW' 1 = some (applyPatch docA none none (some 200)) ∧
    (applyPatch docA none none (some 200)).currentVersion = 200 ∧
    stE'.versions = [verE] ∧
    Document.getById stE' 1 = some docA :=
  have h1 := (C1_versioning stA 1 1 bodyW docA (by decide) verA (by decide)
    (by decide) docA2 stW' [Event.commentContribution 50] (by decide)).1
    (by decide)
  have h2 := (C1_versioning stA 1 1 bodyE docA (by decide) verA (by decide)
    (by decide) docA stE' [] (by decide)).2.1 rfl
  ⟨h1.1, h1.2.2.1, h1.2.2.2, h2.1.trans (by decide), h2.2⟩

end LeyesAbiertas
